import Mathlib

/-!
Verification development for the `ipshield` repository: a DNS server that
classifies queried IPv4 addresses against reputation lists (Firehol netset,
Tor exit nodes, IPsum, Greensnow, data-center CIDR ranges).

The embedding below translates the Go sources into Lean:

* `IPNet`, `IPNet.contains`, `parseIP`, `parseCIDR` model the IPv4 fragment of
  the Go `net` standard library used by the code (`net.ParseIP`,
  `net.ParseCIDR`, `(*net.IPNet).Contains`, `(net.IP).Equal`).  An IPv4
  address is its 32-bit value as a `Nat`.
* `Networks`, `isIPBlocked`, `isDataCenterIP`, `isTorExitNode`,
  `handleRequest` model the current `main.go` (TXT responder over five lists).
* `ARecord.handleRequest` models the earlier revision of `main.go` found in
  the repository history, whose responder serves A-record queries against the
  Firehol list only.
* `parseFireholLines`, `downloadAndParseFireholList` (and the Tor / IPsum /
  Greensnow analogues) model the fetch-and-parse functions, with the network
  outcome (transport error / body lines / stream read error) made explicit.
* `handleUpdateError`, `runUpdates` model the scheduler's retry/backoff loop.
* `StoreStep` is a small-step interleaving model of one snapshot replacement
  under `networksMutex` racing one classification scan.
* `FetchStep` is a small-step model of `GetDataCenterIPRanges`' five worker
  goroutines sending into the capacity-3 error channel.
-/

namespace IPShield

/-! ### IPv4 addresses and CIDR ranges (Go `net` fragment) -/

/-- Bit mask selecting the top `len` bits of a 32-bit value; models the
`net.CIDRMask(len, 32)` mask used by `net.ParseCIDR` for IPv4. -/
def maskOfLen (len : Nat) : Nat := (2 ^ len - 1) <<< (32 - len)

/-- An IPv4 CIDR range as produced by `net.ParseCIDR`: the base address is
stored already masked (`ip.Mask(mask)`), together with the mask length. -/
structure IPNet where
  base : Nat
  maskLen : Nat
deriving DecidableEq, Repr

/-- Models `(*net.IPNet).Contains`: the candidate address ANDed with the mask
must equal the (pre-masked) network base address. -/
def IPNet.contains (n : IPNet) (ip : Nat) : Bool :=
  ip &&& maskOfLen n.maskLen == n.base

/-- Spec-side formulation of range membership ("standard prefix-matching
semantics"): the high `maskLen` bits of the address coincide with the high
bits of the base.  Used only to compare against `IPNet.contains`. -/
def prefixSemantics (n : IPNet) (ip : Nat) : Prop :=
  ip >>> (32 - n.maskLen) = n.base >>> (32 - n.maskLen)

/-- Well-formedness of a parsed range: mask length at most 32, base a 32-bit
value with no bits outside the mask (guaranteed by `net.ParseCIDR`). -/
def IPNet.WF (n : IPNet) : Prop :=
  n.maskLen ≤ 32 ∧ n.base < 2 ^ 32 ∧ n.base &&& maskOfLen n.maskLen = n.base

/-! ### String scanning helpers (Go `strings` fragment, ASCII) -/

/-- ASCII whitespace as trimmed by `strings.TrimSpace` (ASCII fragment). -/
def isSpaceChar (c : Char) : Bool :=
  c == ' ' || c == '\t' || c == '\n' || c == '\r'

/-- Models `strings.TrimSpace` on the character list. -/
def trimSpaceList (cs : List Char) : List Char :=
  ((cs.dropWhile isSpaceChar).reverse.dropWhile isSpaceChar).reverse

/-- Models `strings.TrimSpace`. -/
def trimSpace (s : String) : String := ⟨trimSpaceList s.toList⟩

/-- Models `strings.HasPrefix(line, "#")`. -/
def startsWithHash (s : String) : Bool := s.toList.head? == some '#'

/-- Models `strings.TrimSuffix(name, ".")`: removes one trailing dot. -/
def trimSuffixDot (s : String) : String :=
  if s.toList.getLast? == some '.' then ⟨s.toList.dropLast⟩ else s

/-- Splits a character list at every occurrence of `sep` (occurrences are
dropped; empty segments are kept), as `strings.Split` does. -/
def splitChar (sep : Char) : List Char → List (List Char)
  | [] => [[]]
  | c :: cs =>
    if c == sep then
      [] :: splitChar sep cs
    else
      match splitChar sep cs with
      | [] => [[c]]
      | h :: t => (c :: h) :: t

/-- Splits a character list at every character satisfying `p` (separators
dropped, empty segments kept). -/
def splitWhen (p : Char → Bool) : List Char → List (List Char)
  | [] => [[]]
  | c :: cs =>
    if p c then
      [] :: splitWhen p cs
    else
      match splitWhen p cs with
      | [] => [[c]]
      | h :: t => (c :: h) :: t

/-- Models `strings.Fields`: the maximal runs of non-whitespace characters
(split around every whitespace character, empty segments discarded). -/
def fields (s : String) : List String :=
  ((splitWhen isSpaceChar s.toList).filter (fun cs => !cs.isEmpty)).map
    (fun cs => ⟨cs⟩)

/-! ### Decimal parsing (Go `net` dotted-decimal fragment) -/

def isDigitChar (c : Char) : Bool := '0' ≤ c && c ≤ '9'

def digitVal (c : Char) : Nat := c.toNat - '0'.toNat

/-- Decimal value of a nonempty digits-only character list (as Go's `dtoi`,
which accepts leading zeros). -/
def decDigits (cs : List Char) : Option Nat :=
  if cs.isEmpty then none
  else if cs.all isDigitChar then
    some (cs.foldl (fun a c => a * 10 + digitVal c) 0)
  else none

/-- One dotted-decimal IPv4 field: one to three digits, value at most 255,
no leading zero (Go rejects leading zeros in IP literals). -/
def parseDecOctet (cs : List Char) : Option Nat :=
  match decDigits cs with
  | none => none
  | some v =>
    if 3 < cs.length then none
    else if 1 < cs.length && cs.head? == some '0' then none
    else if v ≤ 255 then some v else none

/-- Models `net.ParseIP` on its IPv4 (dotted-decimal) fragment, returning the
32-bit value of the address. -/
def parseIPList (cs : List Char) : Option Nat :=
  match splitChar '.' cs with
  | [a, b, c, d] =>
    match parseDecOctet a, parseDecOctet b, parseDecOctet c, parseDecOctet d with
    | some va, some vb, some vc, some vd =>
      some (va * 16777216 + vb * 65536 + vc * 256 + vd)
    | _, _, _, _ => none
  | _ => none

/-- Models `net.ParseIP` (IPv4 fragment). -/
def parseIP (s : String) : Option Nat := parseIPList s.toList

/-- Models `net.ParseCIDR` (IPv4 fragment): address part before the `/`,
decimal mask length at most 32 after it; the returned `IPNet` stores the
masked base address, as Go does. -/
def parseCIDR (s : String) : Option IPNet :=
  match splitChar '/' s.toList with
  | [addrPart, maskPart] =>
    match parseIPList addrPart, decDigits maskPart with
    | some ip, some len =>
      if len ≤ 32 then some ⟨ip &&& maskOfLen len, len⟩ else none
    | _, _ => none
  | _ => none

/-! ### The reputation store (the global list variables of `main.go`) -/

/-- The process-wide list state guarded by `networksMutex` in `main.go`:
Firehol CIDRs, data-center CIDRs, Tor exit addresses, IPsum addresses,
Greensnow addresses. -/
structure Networks where
  blockedNetworks : List IPNet
  dataCenterNetworks : List IPNet
  torExitNodes : List Nat
  ipsumIPs : List Nat
  greensnowIPs : List Nat
deriving DecidableEq, Repr

/-- State at process start, before any fetch succeeded: every list empty. -/
def initialNetworks : Networks := ⟨[], [], [], [], []⟩

/-- Models `isIPBlocked`: scan the Firehol ranges for containment, then the
IPsum addresses and the Greensnow addresses for equality, returning true at
the first match. -/
def isIPBlocked (st : Networks) (ip : Nat) : Bool :=
  st.blockedNetworks.any (fun network => network.contains ip) ||
  st.ipsumIPs.any (fun blockedIP => ip == blockedIP) ||
  st.greensnowIPs.any (fun blockedIP => ip == blockedIP)

/-- Models `isDataCenterIP`: scan the data-center ranges for containment. -/
def isDataCenterIP (st : Networks) (ip : Nat) : Bool :=
  st.dataCenterNetworks.any (fun network => network.contains ip)

/-- Models `isTorExitNode`: scan the Tor exit addresses for equality. -/
def isTorExitNode (st : Networks) (ip : Nat) : Bool :=
  st.torExitNodes.any (fun exitNode => exitNode == ip)

/-- the verdict string computed by the if/else chain in `handleRequest`. -/
def classifyTxt (st : Networks) (ip : Nat) : String :=
  if isIPBlocked st ip then "FLAGGED"
  else if isDataCenterIP st ip then "DATACENTER"
  else if isTorExitNode st ip then "TOR_EXIT"
  else "SAFE"

/-! ### DNS messages and the query responder (`handleRequest`) -/

/-- DNS question types relevant to the responder (`dns.TypeA`,
`dns.TypeTXT`, anything else). -/
inductive Qtype where
  | A : Qtype
  | TXT : Qtype
  | other : Qtype
deriving DecidableEq, Repr

/-- DNS opcodes: `dns.OpcodeQuery` or anything else. -/
inductive Opcode where
  | query : Opcode
  | other : Opcode
deriving DecidableEq, Repr

structure Question where
  name : String
  qtype : Qtype
deriving DecidableEq, Repr

/-- A DNS resource record as built by the responder: either a TXT record
(`dns.TXT` with one text value) or an A record (via `dns.NewRR`). -/
inductive RR where
  | txtRec (name : String) (ttl : Nat) (txt : List String) : RR
  | aRec (name : String) (ttl : Nat) (addr : Nat) : RR
deriving DecidableEq, Repr

/-- The fields of `dns.Msg` the responder reads or writes. -/
structure Msg where
  id : Nat
  response : Bool
  opcode : Opcode
  question : List Question
  answer : List RR
deriving DecidableEq, Repr

/-- Models `m.SetReply(r)`: same id, question and opcode, response flag set,
empty answer section. -/
def Msg.setReply (r : Msg) : Msg :=
  { r with response := true, answer := [] }

/-- Fixed TTL on every answer record (`cacheTTL = 3600`). -/
def cacheTTL : Nat := 3600

/-- The answer record (if any) the current responder contributes for one
question: only TXT questions whose name (after trimming the trailing dot)
parses as an address get a record, carrying the classification verdict. -/
def answerForQuestion (st : Networks) (q : Question) : Option RR :=
  match q.qtype with
  | Qtype.TXT =>
    match parseIP (trimSuffixDot q.name) with
    | none => none
    | some ip => some (RR.txtRec q.name cacheTTL [classifyTxt st ip])
  | _ => none

/-- Models `handleRequest` of the current `main.go`: build the reply with
`SetReply`, and if the request is a query, append one answer per answerable
question; the reply is written unconditionally. -/
def handleRequest (st : Networks) (r : Msg) : Msg :=
  let m := r.setReply
  if r.opcode = Opcode.query then
    { m with answer := m.answer ++ r.question.filterMap (answerForQuestion st) }
  else m

/-! ### Feed fetching and parsing (`downloadAndParse...` of `main.go`) -/

/-- Outcome of the `http.Get` + `bufio.Scanner` pair, made explicit: either
the transport call failed, or a body was scanned into lines, possibly cut
short by a stream read error reported by `scanner.Err()`. -/
inductive FetchResult where
  | transportErr (msg : String) : FetchResult
  | body (lines : List String) (readErr : Option String) : FetchResult

/-- The scan loop of `downloadAndParseFireholList`: trim each line, silently
skip empty and `#`-comment lines, skip unparseable lines while logging a
diagnostic, and collect the parsed CIDR ranges.  Returns the collected
ranges together with the diagnostics emitted. -/
def parseFireholLines : List String → List IPNet × List String
  | [] => ([], [])
  | l :: rest =>
    let line := trimSpace l
    if line == "" || startsWithHash line then parseFireholLines rest
    else
      match parseCIDR line with
      | none =>
        let (nets, diags) := parseFireholLines rest
        (nets, ("Error parsing CIDR " ++ line) :: diags)
      | some ipNet =>
        let (nets, diags) := parseFireholLines rest
        (ipNet :: nets, diags)

/-- The scan loop of `downloadAndParseTorExitNodes` and
`downloadAndParseGreensnowList`: like the Firehol loop but each line is a
bare address parsed with `net.ParseIP`. -/
def parseAddressLines : List String → List Nat × List String
  | [] => ([], [])
  | l :: rest =>
    let line := trimSpace l
    if line == "" || startsWithHash line then parseAddressLines rest
    else
      match parseIP line with
      | none =>
        let (ips, diags) := parseAddressLines rest
        (ips, ("Error parsing IP " ++ line) :: diags)
      | some ip =>
        let (ips, diags) := parseAddressLines rest
        (ip :: ips, diags)

/-- The scan loop of `downloadAndParseIpsumList`: each data line is split
into whitespace-separated fields and the first field parsed as an address. -/
def parseIpsumLines : List String → List Nat × List String
  | [] => ([], [])
  | l :: rest =>
    let line := trimSpace l
    if line == "" || startsWithHash line then parseIpsumLines rest
    else
      match fields line with
      | [] => parseIpsumLines rest
      | f :: _ =>
        match parseIP f with
        | none =>
          let (ips, diags) := parseIpsumLines rest
          (ips, ("Error parsing IP " ++ f) :: diags)
        | some ip =>
          let (ips, diags) := parseIpsumLines rest
          (ip :: ips, diags)

/-- Models `downloadAndParseFireholList`: on transport error return the error
without touching the store; otherwise build the new list privately, return
the stream error (if any) without touching the store, and only on full
success install the new list.  The returned pair is (new store state,
returned error). -/
def downloadAndParseFireholList (res : FetchResult) (st : Networks) :
    Networks × Option String :=
  match res with
  | FetchResult.transportErr e => (st, some e)
  | FetchResult.body lines readErr =>
    let newBlockedNetworks := (parseFireholLines lines).1
    match readErr with
    | some e => (st, some e)
    | none => ({ st with blockedNetworks := newBlockedNetworks }, none)

/-- Models `downloadAndParseTorExitNodes` (same shape as the Firehol one). -/
def downloadAndParseTorExitNodes (res : FetchResult) (st : Networks) :
    Networks × Option String :=
  match res with
  | FetchResult.transportErr e => (st, some e)
  | FetchResult.body lines readErr =>
    let newTorExitNodes := (parseAddressLines lines).1
    match readErr with
    | some e => (st, some e)
    | none => ({ st with torExitNodes := newTorExitNodes }, none)

/-- Models `downloadAndParseIpsumList`. -/
def downloadAndParseIpsumList (res : FetchResult) (st : Networks) :
    Networks × Option String :=
  match res with
  | FetchResult.transportErr e => (st, some e)
  | FetchResult.body lines readErr =>
    let newIpsumIPs := (parseIpsumLines lines).1
    match readErr with
    | some e => (st, some e)
    | none => ({ st with ipsumIPs := newIpsumIPs }, none)

/-- Models `downloadAndParseGreensnowList`. -/
def downloadAndParseGreensnowList (res : FetchResult) (st : Networks) :
    Networks × Option String :=
  match res with
  | FetchResult.transportErr e => (st, some e)
  | FetchResult.body lines readErr =>
    let newGreensnowIPs := (parseAddressLines lines).1
    match readErr with
    | some e => (st, some e)
    | none => ({ st with greensnowIPs := newGreensnowIPs }, none)

/-- The scan loop of `parseIPRanges` in `internal/ip/datacenter.go`: trim
each line, silently skip only empty lines (there is no comment branch), skip
every other unparseable line — `#`-comment lines included — while printing a
diagnostic, and collect the parsed CIDR ranges. -/
def parseIPRangesLines : List String → List IPNet × List String
  | [] => ([], [])
  | l :: rest =>
    let cidr := trimSpace l
    if cidr == "" then parseIPRangesLines rest
    else
      match parseCIDR cidr with
      | none =>
        let (nets, diags) := parseIPRangesLines rest
        (nets, ("Error parsing CIDR " ++ cidr) :: diags)
      | some ipNet =>
        let (nets, diags) := parseIPRangesLines rest
        (ipNet :: nets, diags)

/-- Models `parseIPRanges` of `internal/ip/datacenter.go`: parse the scanned
lines, then report the stream error from `scanner.Err()` (if any) alongside
the partially collected ranges, as the Go function does. -/
def parseIPRanges (lines : List String) (readErr : Option String) :
    List IPNet × Option String :=
  let ipNets := (parseIPRangesLines lines).1
  match readErr with
  | some e => (ipNets, some ("error reading IP ranges: " ++ e))
  | none => (ipNets, none)

/-- One read from the DigitalOcean CSV stream: either a decoded record (its
cells) or a CSV decode error reported by `csv.Reader.Read`. -/
inductive CSVRow where
  | record (cells : List String) : CSVRow
  | readErr (msg : String) : CSVRow
deriving DecidableEq, Repr

/-- The CSV read loop of `getDORanges`: collect the first cell of every
non-empty record, but abort with an error at the first row whose decode
fails (the records read so far are discarded). -/
def readDORows : List CSVRow → Except String (List String)
  | [] => Except.ok []
  | CSVRow.readErr e :: _ =>
    Except.error ("error reading DigitalOcean CSV: " ++ e)
  | CSVRow.record cells :: rest =>
    match readDORows rest with
    | Except.error e => Except.error e
    | Except.ok rs =>
      Except.ok
        (match cells with
          | [] => rs
          | c :: _ => c :: rs)

/-- Models `getDORanges`: transport failure fails the fetch; a CSV decode
error fails the fetch; otherwise the collected first cells are parsed as
CIDR lines by `parseIPRanges` (an in-memory reader, so no stream error). -/
def getDORanges (transport : Option String) (rows : List CSVRow) :
    Except String (List IPNet) :=
  match transport with
  | some e => Except.error ("failed to fetch DigitalOcean IP ranges: " ++ e)
  | none =>
    match readDORows rows with
    | Except.error e => Except.error e
    | Except.ok ranges => Except.ok (parseIPRanges ranges none).1

/-- Spec-side description of which lines of a Firehol body contribute an
entry: non-empty, non-comment lines that parse as a CIDR.  Used to compare
the scan loop against the spec's wording. -/
def specAcceptedLine (l : String) : Option IPNet :=
  let t := trimSpace l
  if t == "" || startsWithHash t then none else parseCIDR t

/-- Spec-side description of which lines of a Firehol body produce a
diagnostic: non-empty, non-comment lines that fail to parse. -/
def specDiagnosticLine (l : String) : Option String :=
  let t := trimSpace l
  if t == "" || startsWithHash t then none
  else
    match parseCIDR t with
    | none => some ("Error parsing CIDR " ++ t)
    | some _ => none

/-- Spec-side description of the lines of a bare-address body (Tor exit
nodes, Greensnow) that contribute an entry. -/
def specAcceptedAddressLine (l : String) : Option Nat :=
  let t := trimSpace l
  if t == "" || startsWithHash t then none else parseIP t

/-- Spec-side description of the lines of a bare-address body that produce
a diagnostic: non-empty, non-comment lines that fail to parse. -/
def specAddressDiagLine (l : String) : Option String :=
  let t := trimSpace l
  if t == "" || startsWithHash t then none
  else
    match parseIP t with
    | none => some ("Error parsing IP " ++ t)
    | some _ => none

/-- Spec-side description of the lines of an IPsum body that contribute an
entry: the first whitespace-separated field parses as an address. -/
def specAcceptedIpsumLine (l : String) : Option Nat :=
  let t := trimSpace l
  if t == "" || startsWithHash t then none
  else
    match fields t with
    | [] => none
    | f :: _ => parseIP f

/-- Spec-side description of the lines of an IPsum body that produce a
diagnostic. -/
def specIpsumDiagLine (l : String) : Option String :=
  let t := trimSpace l
  if t == "" || startsWithHash t then none
  else
    match fields t with
    | [] => none
    | f :: _ =>
      match parseIP f with
      | none => some ("Error parsing IP " ++ f)
      | some _ => none

/-- Spec-side description of the lines of a data-center CIDR body that
contribute an entry: every non-empty line that parses. -/
def specAcceptedRangeLine (l : String) : Option IPNet :=
  let t := trimSpace l
  if t == "" then none else parseCIDR t

/-- Spec-side description of the lines of a data-center CIDR body that
produce a diagnostic: every non-empty line that fails to parse, `#`-comment
lines included. -/
def specRangeDiagLine (l : String) : Option String :=
  let t := trimSpace l
  if t == "" then none
  else
    match parseCIDR t with
    | none => some ("Error parsing CIDR " ++ t)
    | some _ => none

/-! ### Scheduler retry/backoff (`periodicUpdate` / `handleUpdateError`) -/

/-- `initialRetryDelay = 5 * time.Second`, in seconds. -/
def initialRetryDelay : Nat := 5

/-- `maxRetryDelay = 5 * time.Minute`, in seconds. -/
def maxRetryDelay : Nat := 300

/-- Models `handleUpdateError`: sleep the current retry delay (the sleep is
the argument itself), then return it doubled, capped at `maxRetryDelay`. -/
def handleUpdateError (retryDelay : Nat) : Nat :=
  let retryDelay2 := retryDelay * 2
  if retryDelay2 > maxRetryDelay then maxRetryDelay else retryDelay2

/-- The per-feed success/failure processing of `periodicUpdate`, folded over
the sequence of fetch outcomes (`true` = that fetch succeeded): one shared
`retryDelay` variable for all feeds; a failure sleeps the current delay and
replaces it by `handleUpdateError` of it, a success (of any feed) resets it
to `initialRetryDelay`.  Returns the final delay and the list of backoff
sleeps performed, in order. -/
def runUpdates (retryDelay : Nat) : List Bool → Nat × List Nat
  | [] => (retryDelay, [])
  | ok :: rest =>
    if ok then runUpdates initialRetryDelay rest
    else
      let res := runUpdates (handleUpdateError retryDelay) rest
      (res.1, retryDelay :: res.2)

/-- The retry delay after `k` consecutive failed fetches starting from
delay `d`: iterate the sleep-then-double-with-cap update of
`handleUpdateError`. -/
def delayIter : Nat → Nat → Nat
  | 0, d => d
  | k + 1, d => delayIter k (handleUpdateError d)

/-! ### `GetDataCenterIPRanges` and its use in `main` -/

/-- Outcome of one of the five sub-source fetches (main datacenter list, OCI,
DigitalOcean, Akamai, Scaleway): parsed ranges or an error message. -/
inductive SourceResult where
  | ok (ranges : List IPNet) : SourceResult
  | err (msg : String) : SourceResult
deriving DecidableEq, Repr

/-- The `addRanges` accumulation of `GetDataCenterIPRanges`: append the
ranges of every successful sub-source (source order taken as the canonical
interleaving of the mutex-guarded appends). -/
def collectRanges (results : List SourceResult) : List IPNet :=
  results.foldl
    (fun acc r =>
      match r with
      | SourceResult.ok ranges => acc ++ ranges
      | SourceResult.err _ => acc)
    []

/-- The error strings drained from `errChan` after `wg.Wait()`. -/
def collectErrStrings (results : List SourceResult) : List String :=
  results.filterMap
    (fun r =>
      match r with
      | SourceResult.ok _ => none
      | SourceResult.err e => some e)

/-- Models the return value of `GetDataCenterIPRanges` (given the five
sub-source outcomes): always the collected ranges, paired with a combined
error when any sub-source failed and `none` otherwise. -/
def GetDataCenterIPRanges (results : List SourceResult) :
    List IPNet × Option String :=
  let allRanges := collectRanges results
  let errStrings := collectErrStrings results
  if errStrings.isEmpty then (allRanges, none)
  else
    (allRanges,
      some ("errors occurred: " ++ String.intercalate "; " errStrings))

/-- Spec-side description of the value `GetDataCenterIPRanges` assembles:
the ranges of the successful sub-sources, concatenated. -/
def specSuccessRanges (results : List SourceResult) : List IPNet :=
  (results.filterMap
    (fun r =>
      match r with
      | SourceResult.ok ranges => some ranges
      | SourceResult.err _ => none)).flatten

/-- Models the startup code of `main`: the returned ranges are installed as
`dataCenterNetworks` whether or not an error was also returned (the error is
only logged as a warning). -/
def mainInstallDataCenter (results : List SourceResult) (st : Networks) :
    Networks :=
  let fetched := GetDataCenterIPRanges results
  { st with dataCenterNetworks := fetched.1 }

/-- Models the data-center branch of `periodicUpdate`: given the pair
returned by `GetDataCenterIPRanges`, install the ranges only when the error
is nil; on error the store is not touched. -/
def periodicUpdateDataCenter (fetched : List IPNet × Option String)
    (st : Networks) : Networks :=
  match fetched.2 with
  | some _ => st
  | none => { st with dataCenterNetworks := fetched.1 }

/-! ### The earlier A-record responder (previous revision of `main.go`) -/

namespace ARecord

/-- The sentinel address `127.0.0.1` ("safe"). -/
def safeSentinel : Nat := 2130706433

/-- The sentinel address `127.0.0.2` ("flagged"). -/
def flaggedSentinel : Nat := 2130706434

/-- List state of the earlier revision: only the Firehol blocked networks. -/
structure State where
  blockedNetworks : List IPNet
deriving DecidableEq, Repr

/-- Models `isIPBlocked` of the earlier revision. -/
def isIPBlocked (st : State) (ip : Nat) : Bool :=
  st.blockedNetworks.any (fun network => network.contains ip)

/-- The answer the earlier responder contributes for one question: only A
questions with a parseable name get a record, `127.0.0.2` when blocked and
`127.0.0.1` otherwise (`dns.NewRR` applies its default TTL of 3600). -/
def answerForQuestion (st : State) (q : Question) : Option RR :=
  match q.qtype with
  | Qtype.A =>
    match parseIP (trimSuffixDot q.name) with
    | none => none
    | some ip =>
      if isIPBlocked st ip then some (RR.aRec q.name 3600 flaggedSentinel)
      else some (RR.aRec q.name 3600 safeSentinel)
  | _ => none

/-- Models `handleRequest` of the earlier revision (A-record responder). -/
def handleRequest (st : State) (r : Msg) : Msg :=
  let m := r.setReply
  if r.opcode = Opcode.query then
    { m with answer := m.answer ++ r.question.filterMap (answerForQuestion st) }
  else m

end ARecord

/-! ### Interleaving model of snapshot replacement vs. classification

One writer performing `downloadAndParseFireholList`'s install sequence
(build the new list privately, `networksMutex.Lock()`, swap the global list
reference, `Unlock()`) runs concurrently with one reader performing a
classification scan (`networksMutex.RLock()`, scan the current list entry by
entry, `RUnlock()`).  Lock acquisitions follow RWMutex semantics: the write
lock needs no readers and no writer; the read lock needs no writer. -/

/-- Program counter of the classification scan. -/
inductive ReaderPhase where
  | idle : ReaderPhase
  | scanning (acc : List IPNet) (i : Nat) : ReaderPhase
  | done (acc : List IPNet) : ReaderPhase
deriving DecidableEq, Repr

/-- Program counter of the snapshot installer. -/
inductive WriterPhase where
  | building : WriterPhase
  | locked : WriterPhase
  | swapped : WriterPhase
  | finished : WriterPhase
deriving DecidableEq, Repr

/-- Shared state: the global `blockedNetworks` reference, the RWMutex
(reader count and writer flag), and both program counters. -/
structure StoreState where
  blockedNetworks : List IPNet
  readers : Nat
  writerHeld : Bool
  reader : ReaderPhase
  writer : WriterPhase
deriving DecidableEq, Repr

/-- Initial state: the previous snapshot is installed, no lock is held, the
reader has not started, the writer is still building its private list. -/
def initStore (oldList : List IPNet) : StoreState :=
  ⟨oldList, 0, false, ReaderPhase.idle, WriterPhase.building⟩

/-- One interleaving step.  `newList` is the privately built replacement
snapshot (its construction touches no shared state, so it is a parameter). -/
inductive StoreStep (newList : List IPNet) : StoreState → StoreState → Prop
  | wLock (s : StoreState) (hw : s.writer = WriterPhase.building)
      (hr : s.readers = 0) (hh : s.writerHeld = false) :
      StoreStep newList s { s with writerHeld := true, writer := WriterPhase.locked }
  | wSwap (s : StoreState) (hw : s.writer = WriterPhase.locked) :
      StoreStep newList s
        { s with blockedNetworks := newList, writer := WriterPhase.swapped }
  | wUnlock (s : StoreState) (hw : s.writer = WriterPhase.swapped) :
      StoreStep newList s
        { s with writerHeld := false, writer := WriterPhase.finished }
  | rLock (s : StoreState) (hp : s.reader = ReaderPhase.idle)
      (hh : s.writerHeld = false) :
      StoreStep newList s
        { s with readers := s.readers + 1, reader := ReaderPhase.scanning [] 0 }
  | rScan (s : StoreState) (acc : List IPNet) (i : Nat)
      (hp : s.reader = ReaderPhase.scanning acc i)
      (hi : i < s.blockedNetworks.length) :
      StoreStep newList s
        { s with
          reader := ReaderPhase.scanning
            (acc ++ [s.blockedNetworks.get ⟨i, hi⟩]) (i + 1) }
  | rUnlock (s : StoreState) (acc : List IPNet) (i : Nat)
      (hp : s.reader = ReaderPhase.scanning acc i)
      (hi : s.blockedNetworks.length ≤ i) :
      StoreStep newList s
        { s with readers := s.readers - 1, reader := ReaderPhase.done acc }

/-- Read-lock holders contributed by the reader's phase. -/
def readerCount : ReaderPhase → Nat
  | ReaderPhase.scanning _ _ => 1
  | _ => 0

/-- Inductive invariant of the interleaving model: the shared list is the old
snapshot until the swap and the new one after it; the writer flag matches the
writer's critical section; the reader count matches the reader's phase; a
scan in progress excludes the writer's critical section and has collected
exactly the scanned part of the current list; a finished scan collected one
of the two snapshots whole. -/
def StoreInv (oldList newList : List IPNet) (s : StoreState) : Prop :=
  ((s.writer = WriterPhase.building ∨ s.writer = WriterPhase.locked) →
    s.blockedNetworks = oldList) ∧
  ((s.writer = WriterPhase.swapped ∨ s.writer = WriterPhase.finished) →
    s.blockedNetworks = newList) ∧
  (s.writerHeld = true ↔
    (s.writer = WriterPhase.locked ∨ s.writer = WriterPhase.swapped)) ∧
  s.readers = readerCount s.reader ∧
  (∀ acc i, s.reader = ReaderPhase.scanning acc i →
    (s.writer = WriterPhase.building ∨ s.writer = WriterPhase.finished) ∧
    acc = s.blockedNetworks.take i ∧ i ≤ s.blockedNetworks.length) ∧
  (∀ acc, s.reader = ReaderPhase.done acc → acc = oldList ∨ acc = newList)

/-! ### Worker/channel model of `GetDataCenterIPRanges`

Five goroutines each either complete successfully or must send one error
into `errChan`, a channel with buffer capacity 3; the channel is received
from only after `wg.Wait()`, i.e. after every goroutine has completed, so a
send can only complete by occupying a free buffer slot. -/

/-- Capacity of `errChan` (`make(chan error, 3)`). -/
def errChanCap : Nat := 3

/-- `pending` holds, for each goroutine not yet completed, whether it must
send an error (`true`) before completing; `buffered` is the number of errors
sitting in the channel buffer. -/
structure FetchersState where
  pending : List Bool
  buffered : Nat
deriving DecidableEq, Repr

/-- One scheduler step: a succeeding goroutine completes, or a failing
goroutine performs its buffered send (possible only while a buffer slot is
free) and completes. -/
inductive FetchStep : FetchersState → FetchersState → Prop
  | finishOk (l1 l2 : List Bool) (b : Nat) :
      FetchStep ⟨l1 ++ false :: l2, b⟩ ⟨l1 ++ l2, b⟩
  | sendErr (l1 l2 : List Bool) (b : Nat) (h : b < errChanCap) :
      FetchStep ⟨l1 ++ true :: l2, b⟩ ⟨l1 ++ l2, b + 1⟩

end IPShield

section ScratchChecks
open IPShield
example : parseIP "10.1.2.3" = some 167838211 := by decide
example : parseIP "not-an-ip" = none := by decide
example : parseCIDR "10.0.0.0/8" = some ⟨167772160, 8⟩ := by decide
example : (IPNet.mk 167772160 8).contains 167838211 = true := by decide
example : (IPNet.mk 167772160 8).contains 184549376 = false := by decide
example : trimSuffixDot "1.2.3.4." = "1.2.3.4" := by decide
example : trimSpace "  x " = "x" := by decide
example : fields "1.2.3.4  7" = ["1.2.3.4", "7"] := by decide
example : fields "1.2.3.4\t7" = ["1.2.3.4", "7"] := by decide
example :
    (handleRequest ⟨[⟨167772160, 8⟩], [⟨167772160, 8⟩], [], [], []⟩
      ⟨7, false, .query, [⟨"10.1.2.3.", .TXT⟩], []⟩).answer =
    [.txtRec "10.1.2.3." 3600 ["FLAGGED"]] := by decide
example :
    (handleRequest initialNetworks
      ⟨7, false, .query, [⟨"8.8.8.8.", .A⟩], []⟩).answer = [] := by decide
example :
    (ARecord.handleRequest ⟨[⟨167772160, 8⟩]⟩
      ⟨7, false, .query, [⟨"10.1.2.3.", .A⟩], []⟩).answer =
    [.aRec "10.1.2.3." 3600 ARecord.flaggedSentinel] := by decide
end ScratchChecks

namespace IPShield

/-! ## Claim C1: TXT queries answer with exactly one verdict record -/

/-- Claim C1: for every DNS TXT query whose name parses as an IP address
literal, the responder answers with exactly one TXT record whose text is the
verdict computed in fixed precedence order (`FLAGGED`, then `DATACENTER`,
then `TOR_EXIT`, else `SAFE`); in particular an address on both the flagged
and the data-center lists yields `FLAGGED`, never `DATACENTER`. -/
theorem txt_query_answers_single_verdict (st : Networks) (r : Msg)
    (q : Question) (ip : Nat) (hop : r.opcode = Opcode.query)
    (hq : r.question = [q]) (ht : q.qtype = Qtype.TXT)
    (hip : parseIP (trimSuffixDot q.name) = some ip) :
    (handleRequest st r).answer =
      [RR.txtRec q.name cacheTTL [classifyTxt st ip]] ∧
    (∀ st2 ip2, isIPBlocked st2 ip2 = true → classifyTxt st2 ip2 = "FLAGGED") ∧
    (∀ st2 ip2, isIPBlocked st2 ip2 = false → isDataCenterIP st2 ip2 = true →
      classifyTxt st2 ip2 = "DATACENTER") ∧
    (∀ st2 ip2, isIPBlocked st2 ip2 = false → isDataCenterIP st2 ip2 = false →
      isTorExitNode st2 ip2 = true → classifyTxt st2 ip2 = "TOR_EXIT") ∧
    (∀ st2 ip2, isIPBlocked st2 ip2 = false → isDataCenterIP st2 ip2 = false →
      isTorExitNode st2 ip2 = false → classifyTxt st2 ip2 = "SAFE") := by
  refine ⟨?_, ?_, ?_, ?_, ?_⟩
  · simp [handleRequest, hop, hq, Msg.setReply, answerForQuestion, ht, hip]
  all_goals intro st2 ip2 <;> intros <;> simp [classifyTxt, *]

/-- Witness for C1: a concrete address on both the Firehol list and the
data-center list is answered `FLAGGED`. -/
theorem txt_query_answers_single_verdict_witness :
    parseIP (trimSuffixDot "10.1.2.3.") = some 167838211 ∧
    (handleRequest ⟨[⟨167772160, 8⟩], [⟨167772160, 8⟩], [], [], []⟩
      ⟨7, false, Opcode.query, [⟨"10.1.2.3.", Qtype.TXT⟩], []⟩).answer =
      [RR.txtRec "10.1.2.3." cacheTTL ["FLAGGED"]] := by
  refine ⟨by decide, ?_⟩
  have h := txt_query_answers_single_verdict
    ⟨[⟨167772160, 8⟩], [⟨167772160, 8⟩], [], [], []⟩
    ⟨7, false, Opcode.query, [⟨"10.1.2.3.", Qtype.TXT⟩], []⟩
    ⟨"10.1.2.3.", Qtype.TXT⟩ 167838211 rfl rfl rfl (by decide)
  rw [h.1,
    h.2.1 ⟨[⟨167772160, 8⟩], [⟨167772160, 8⟩], [], [], []⟩ 167838211 (by decide)]

/-! ## Claim C8: malformed query names yield no answers but a reply -/

/-- Claim C8: for a DNS question whose name is not a well-formed address
literal, the responder emits no answer records, yet still produces a
well-formed reply (response flag set, id and question preserved); the
malformed name is not treated as an error. -/
theorem malformed_query_name_empty_answer (st : Networks) (r : Msg)
    (q : Question) (hq : r.question = [q])
    (hip : parseIP (trimSuffixDot q.name) = none) :
    (handleRequest st r).answer = [] ∧
    (handleRequest st r).response = true ∧
    (handleRequest st r).id = r.id ∧
    (handleRequest st r).question = r.question := by
  have hans : answerForQuestion st q = none := by
    unfold answerForQuestion
    cases hqt : q.qtype <;> simp [hip]
  unfold handleRequest Msg.setReply
  by_cases hop : r.opcode = Opcode.query <;> simp [hop, hq, hans]

/-- Witness for C8: the name `not-an-ip` is answered with an empty answer
section in an otherwise well-formed reply. -/
theorem malformed_query_name_empty_answer_witness :
    parseIP (trimSuffixDot "not-an-ip.") = none ∧
    (handleRequest initialNetworks
      ⟨42, false, Opcode.query, [⟨"not-an-ip.", Qtype.TXT⟩], []⟩).answer = [] ∧
    (handleRequest initialNetworks
      ⟨42, false, Opcode.query, [⟨"not-an-ip.", Qtype.TXT⟩], []⟩).response = true ∧
    (handleRequest initialNetworks
      ⟨42, false, Opcode.query, [⟨"not-an-ip.", Qtype.TXT⟩], []⟩).id = 42 := by
  have h := malformed_query_name_empty_answer initialNetworks
    ⟨42, false, Opcode.query, [⟨"not-an-ip.", Qtype.TXT⟩], []⟩
    ⟨"not-an-ip.", Qtype.TXT⟩ rfl (by decide)
  exact ⟨by decide, h.1, h.2.1, h.2.2.1⟩

/-! ## Claim C3: A-record sentinel answers -/

/-- Counterexample to claim C3: in the current responder, an A-record query
for a well-formed (and even flagged) address receives no answer record at
all — no sentinel address is returned. -/
theorem a_query_no_sentinel_counterexample :
    parseIP (trimSuffixDot "8.8.8.8.") = some 134744072 ∧
    isIPBlocked ⟨[⟨134744072, 32⟩], [], [], [], []⟩ 134744072 = true ∧
    (handleRequest ⟨[⟨134744072, 32⟩], [], [], [], []⟩
      ⟨7, false, Opcode.query, [⟨"8.8.8.8.", Qtype.A⟩], []⟩).answer = [] := by
  decide

/-- Claim C3 as amended: the current responder serves no answer records for
A-record queries (it answers TXT queries only); the sentinel behaviour
belongs to the earlier A-record revision, which answers `127.0.0.2` when the
address is on the blocked list and `127.0.0.1` otherwise. -/
theorem a_query_sentinels_amended (st : Networks) (st3 : ARecord.State)
    (r : Msg) (q : Question) (ip : Nat) (hop : r.opcode = Opcode.query)
    (hq : r.question = [q]) (ht : q.qtype = Qtype.A)
    (hip : parseIP (trimSuffixDot q.name) = some ip) :
    (handleRequest st r).answer = [] ∧
    (ARecord.handleRequest st3 r).answer =
      [RR.aRec q.name 3600
        (if ARecord.isIPBlocked st3 ip then ARecord.flaggedSentinel
         else ARecord.safeSentinel)] := by
  constructor
  · have hans : answerForQuestion st q = none := by
      unfold answerForQuestion
      simp [ht]
    unfold handleRequest Msg.setReply
    simp [hop, hq, hans]
  · unfold ARecord.handleRequest Msg.setReply ARecord.answerForQuestion
    by_cases hb : ARecord.isIPBlocked st3 ip <;> simp [hop, hq, ht, hip, hb]

/-- Witness for C3's amended statement: a flagged address under both
responders. -/
theorem a_query_sentinels_amended_witness :
    parseIP (trimSuffixDot "10.1.2.3.") = some 167838211 ∧
    (handleRequest initialNetworks
      ⟨9, false, Opcode.query, [⟨"10.1.2.3.", Qtype.A⟩], []⟩).answer = [] ∧
    (ARecord.handleRequest ⟨[⟨167772160, 8⟩]⟩
      ⟨9, false, Opcode.query, [⟨"10.1.2.3.", Qtype.A⟩], []⟩).answer =
      [RR.aRec "10.1.2.3." 3600 ARecord.flaggedSentinel] := by
  have h := a_query_sentinels_amended initialNetworks ⟨[⟨167772160, 8⟩]⟩
    ⟨9, false, Opcode.query, [⟨"10.1.2.3.", Qtype.A⟩], []⟩
    ⟨"10.1.2.3.", Qtype.A⟩ 167838211 rfl rfl rfl (by decide)
  refine ⟨by decide, h.1, ?_⟩
  have hb : ARecord.isIPBlocked ⟨[⟨167772160, 8⟩]⟩ 167838211 = true := by decide
  rw [h.2, hb]
  rfl

/-! ## Claim C5: failed fetches leave the store untouched -/

/-- Claim C5: if a feed's fetch fails — transport error or stream read error
— the store is returned unchanged for every one of the four line feeds, so
the previously installed snapshot (or the initial empty state, under which
everything classifies `SAFE`) remains authoritative. -/
theorem fetch_failure_preserves_store (st : Networks) (e : String)
    (lines : List String) :
    downloadAndParseFireholList (FetchResult.transportErr e) st = (st, some e) ∧
    downloadAndParseFireholList (FetchResult.body lines (some e)) st = (st, some e) ∧
    downloadAndParseTorExitNodes (FetchResult.transportErr e) st = (st, some e) ∧
    downloadAndParseTorExitNodes (FetchResult.body lines (some e)) st = (st, some e) ∧
    downloadAndParseIpsumList (FetchResult.transportErr e) st = (st, some e) ∧
    downloadAndParseIpsumList (FetchResult.body lines (some e)) st = (st, some e) ∧
    downloadAndParseGreensnowList (FetchResult.transportErr e) st = (st, some e) ∧
    downloadAndParseGreensnowList (FetchResult.body lines (some e)) st = (st, some e) ∧
    (∀ ranges : List IPNet, periodicUpdateDataCenter (ranges, some e) st = st) ∧
    (∀ ip : Nat, classifyTxt initialNetworks ip = "SAFE") :=
  ⟨rfl, rfl, rfl, rfl, rfl, rfl, rfl, rfl, fun _ => rfl, fun _ => rfl⟩

/-! ## Claim C6: per-line skipping is non-fatal -/

/-- Helper: the Firehol scan loop collects exactly the parseable non-empty
non-comment lines, and emits a diagnostic exactly for the lines that fail to
parse. -/
theorem parseFireholLines_spec (lines : List String) :
    parseFireholLines lines =
      (lines.filterMap specAcceptedLine, lines.filterMap specDiagnosticLine) := by
  induction lines with
  | nil => rfl
  | cons l rest ih =>
    by_cases h : (trimSpace l == "" || startsWithHash (trimSpace l)) = true
    · simp [parseFireholLines, specAcceptedLine, specDiagnosticLine,
        List.filterMap_cons, h, ih]
    · cases hp : parseCIDR (trimSpace l) with
      | none =>
        simp [parseFireholLines, specAcceptedLine, specDiagnosticLine,
          List.filterMap_cons, h, hp, ih]
      | some n =>
        simp [parseFireholLines, specAcceptedLine, specDiagnosticLine,
          List.filterMap_cons, h, hp, ih]

/-- Counterexample to claim C6: on a body with an empty line, a comment line
and an unparseable line, only the unparseable line produces a diagnostic —
empty and comment lines are skipped silently, so "each line that is empty,
starts with `#`, or fails to parse is skipped with a diagnostic" fails (the
claim would require three diagnostics here, the code emits one). -/
theorem skipped_line_diagnostics_counterexample :
    (parseFireholLines ["", "# comment", "bad-line", "10.0.0.0/8"]).1 =
      [⟨167772160, 8⟩] ∧
    (parseFireholLines ["", "# comment", "bad-line", "10.0.0.0/8"]).2 =
      ["Error parsing CIDR bad-line"] ∧
    ¬ (parseFireholLines ["", "# comment", "bad-line", "10.0.0.0/8"]).2.length = 3 := by
  decide

/-- Helper: the bare-address scan loop (Tor exit nodes, Greensnow) collects
exactly the parseable non-empty non-comment lines and emits a diagnostic
exactly for the lines that fail to parse. -/
theorem parseAddressLines_spec (lines : List String) :
    parseAddressLines lines =
      (lines.filterMap specAcceptedAddressLine,
        lines.filterMap specAddressDiagLine) := by
  induction lines with
  | nil => rfl
  | cons l rest ih =>
    by_cases h : (trimSpace l == "" || startsWithHash (trimSpace l)) = true
    · simp [parseAddressLines, specAcceptedAddressLine, specAddressDiagLine,
        List.filterMap_cons, h, ih]
    · cases hp : parseIP (trimSpace l) with
      | none =>
        simp [parseAddressLines, specAcceptedAddressLine, specAddressDiagLine,
          List.filterMap_cons, h, hp, ih]
      | some ip =>
        simp [parseAddressLines, specAcceptedAddressLine, specAddressDiagLine,
          List.filterMap_cons, h, hp, ih]

/-- Helper: the IPsum scan loop collects exactly the lines whose first
whitespace-separated field parses, with a diagnostic exactly for the first
fields that fail to parse. -/
theorem parseIpsumLines_spec (lines : List String) :
    parseIpsumLines lines =
      (lines.filterMap specAcceptedIpsumLine,
        lines.filterMap specIpsumDiagLine) := by
  induction lines with
  | nil => rfl
  | cons l rest ih =>
    by_cases h : (trimSpace l == "" || startsWithHash (trimSpace l)) = true
    · simp [parseIpsumLines, specAcceptedIpsumLine, specIpsumDiagLine,
        List.filterMap_cons, h, ih]
    · cases hf : fields (trimSpace l) with
      | nil =>
        simp [parseIpsumLines, specAcceptedIpsumLine, specIpsumDiagLine,
          List.filterMap_cons, h, hf, ih]
      | cons f fs =>
        cases hp : parseIP f with
        | none =>
          simp [parseIpsumLines, specAcceptedIpsumLine, specIpsumDiagLine,
            List.filterMap_cons, h, hf, hp, ih]
        | some ip =>
          simp [parseIpsumLines, specAcceptedIpsumLine, specIpsumDiagLine,
            List.filterMap_cons, h, hf, hp, ih]

/-- Helper: the data-center CIDR scan loop collects exactly the parseable
non-empty lines and emits a diagnostic for every other non-empty line —
there is no comment branch, so `#`-comment lines get a diagnostic too. -/
theorem parseIPRangesLines_spec (lines : List String) :
    parseIPRangesLines lines =
      (lines.filterMap specAcceptedRangeLine,
        lines.filterMap specRangeDiagLine) := by
  induction lines with
  | nil => rfl
  | cons l rest ih =>
    by_cases h : (trimSpace l == "") = true
    · simp [parseIPRangesLines, specAcceptedRangeLine, specRangeDiagLine,
        List.filterMap_cons, h, ih]
    · cases hp : parseCIDR (trimSpace l) with
      | none =>
        simp [parseIPRangesLines, specAcceptedRangeLine, specRangeDiagLine,
          List.filterMap_cons, h, hp, ih]
      | some n =>
        simp [parseIPRangesLines, specAcceptedRangeLine, specRangeDiagLine,
          List.filterMap_cons, h, hp, ih]

/-- Helper: a run of well-formed CSV records yields the first cell of every
non-empty record. -/
theorem readDORows_records (cellLists : List (List String)) :
    readDORows (cellLists.map CSVRow.record) =
      Except.ok (cellLists.filterMap List.head?) := by
  induction cellLists with
  | nil => rfl
  | cons c rest ih =>
    cases c with
    | nil => simp [readDORows, ih, List.filterMap_cons]
    | cons x xs => simp [readDORows, ih, List.filterMap_cons]

/-- Helper: the first CSV decode error aborts the read loop with that
error, discarding the records read so far. -/
theorem readDORows_first_err (cellLists : List (List String)) (e : String)
    (rows2 : List CSVRow) :
    readDORows (cellLists.map CSVRow.record ++ CSVRow.readErr e :: rows2) =
      Except.error ("error reading DigitalOcean CSV: " ++ e) := by
  induction cellLists with
  | nil => rfl
  | cons c rest ih => simp [readDORows, ih]

/-- Claim C6 as amended: per-line parse problems are skipped and excluded
from the snapshot, never fatal, in every line-oriented feed scan, and the
remaining valid entries are kept.  The four `main.go` loops (Firehol, Tor
exit nodes, IPsum, Greensnow) skip empty and `#`-comment lines silently and
skip unparseable lines with a diagnostic; `parseIPRanges` skips only empty
lines silently and skips every other unparseable line — `#`-comment lines
included, since it has no comment branch — with a diagnostic.  A fetch
returns an error only on a transport failure, a stream-level read error, or
a container-level decode error: in the DigitalOcean source a CSV row decode
error aborts that fetch with an error (rows read so far are discarded),
while a body of well-formed rows always succeeds. -/
theorem per_line_skip_nonfatal_amended (lines : List String) (st : Networks)
    (e : String) (rows2 : List CSVRow) (cellLists : List (List String)) :
    (parseFireholLines lines).1 = lines.filterMap specAcceptedLine ∧
    (parseFireholLines lines).2 = lines.filterMap specDiagnosticLine ∧
    (parseAddressLines lines).1 = lines.filterMap specAcceptedAddressLine ∧
    (parseAddressLines lines).2 = lines.filterMap specAddressDiagLine ∧
    (parseIpsumLines lines).1 = lines.filterMap specAcceptedIpsumLine ∧
    (parseIpsumLines lines).2 = lines.filterMap specIpsumDiagLine ∧
    (parseIPRangesLines lines).1 = lines.filterMap specAcceptedRangeLine ∧
    (parseIPRangesLines lines).2 = lines.filterMap specRangeDiagLine ∧
    specRangeDiagLine "# comment" = some "Error parsing CIDR # comment" ∧
    downloadAndParseFireholList (FetchResult.body lines none) st =
      ({ st with blockedNetworks := lines.filterMap specAcceptedLine }, none) ∧
    (downloadAndParseFireholList (FetchResult.transportErr e) st).2 = some e ∧
    (downloadAndParseFireholList (FetchResult.body lines (some e)) st).2 = some e ∧
    (parseIPRanges lines none).2 = none ∧
    (parseIPRanges lines (some e)).2 =
      some ("error reading IP ranges: " ++ e) ∧
    getDORanges (some e) rows2 =
      Except.error ("failed to fetch DigitalOcean IP ranges: " ++ e) ∧
    getDORanges none
        (cellLists.map CSVRow.record ++ CSVRow.readErr e :: rows2) =
      Except.error ("error reading DigitalOcean CSV: " ++ e) ∧
    getDORanges none (cellLists.map CSVRow.record) =
      Except.ok (parseIPRanges (cellLists.filterMap List.head?) none).1 := by
  have h1 := parseFireholLines_spec lines
  have h2 := parseAddressLines_spec lines
  have h3 := parseIpsumLines_spec lines
  have h4 := parseIPRangesLines_spec lines
  refine ⟨by rw [h1], by rw [h1], by rw [h2], by rw [h2], by rw [h3],
    by rw [h3], by rw [h4], by rw [h4], by decide, ?_, rfl, rfl, rfl, rfl,
    rfl, ?_, ?_⟩
  · simp [downloadAndParseFireholList, h1]
  · simp [getDORanges, readDORows_first_err]
  · simp [getDORanges, readDORows_records]

/-! ## Claim C4: retry backoff growth -/

/-- Helper: `handleUpdateError` never exceeds the cap. -/
theorem handleUpdateError_le (d : Nat) : handleUpdateError d ≤ maxRetryDelay := by
  simp only [handleUpdateError, maxRetryDelay]
  split <;> omega

/-- Helper: the delay after `k` consecutive failures starting at `d` is
`d·2^k` capped at the maximum. -/
theorem delayIter_min (k : Nat) (d : Nat) (hd : d ≤ maxRetryDelay) :
    delayIter k d = min (d * 2 ^ k) maxRetryDelay := by
  induction k generalizing d with
  | zero =>
    simp only [delayIter, pow_zero, mul_one]
    exact (Nat.min_eq_left hd).symm
  | succ k ih =>
    rw [delayIter, ih (handleUpdateError d) (handleUpdateError_le d)]
    simp only [handleUpdateError, maxRetryDelay] at *
    have hp : 0 < 2 ^ k := pow_pos (by norm_num) k
    by_cases hc : d * 2 > 300
    · rw [if_pos hc, Nat.min_eq_right (Nat.le_mul_of_pos_right 300 hp),
        Nat.min_eq_right]
      calc (300 : Nat) ≤ 301 * 1 := by norm_num
        _ ≤ (d * 2) * 2 ^ k := Nat.mul_le_mul (by omega) hp
        _ = d * 2 ^ (k + 1) := by ring
    · rw [if_neg hc]
      congr 1
      ring

/-- Helper: the sleeps recorded over `n` consecutive failures are the
successive delays. -/
theorem runUpdates_replicate_false (n : Nat) (d : Nat) :
    (runUpdates d (List.replicate n false)).2 =
      (List.range n).map (fun k => delayIter k d) := by
  induction n generalizing d with
  | zero => rfl
  | succ n ih =>
    rw [List.replicate_succ, List.range_succ_eq_map, List.map_cons, List.map_map]
    show d :: (runUpdates (handleUpdateError d) (List.replicate n false)).2 = _
    rw [ih]
    rfl

/-- Counterexample to claim C4: the backoff delay is one variable shared by
all feeds, not independent per feed.  In a pass where the first feed fails
and then a second, different feed fails for the first time, the sleep taken
at the second feed's first failure is 10 s, not the
`min(initialRetryDelay · 2^0, maxRetryDelay) = 5` s the per-feed formula
demands. -/
theorem backoff_not_per_feed_counterexample :
    (runUpdates initialRetryDelay [false, false]).2 = [5, 10] ∧
    min (initialRetryDelay * 2 ^ (1 - 1)) maxRetryDelay = 5 ∧
    ¬ ((runUpdates initialRetryDelay [false, false]).2)[1]? =
      some (min (initialRetryDelay * 2 ^ (1 - 1)) maxRetryDelay) := by
  decide

/-- Claim C4 as amended: the loop keeps a single shared retry delay.  Over a
run of `N` consecutive failures (by any feeds, with no intervening success)
the sleep taken at the `(k+1)`-th failure is
`min(initialRetryDelay · 2^k, maxRetryDelay)`, and one successful fetch of
any feed resets the delay to `initialRetryDelay`. -/
theorem backoff_growth_amended (N k : Nat) (hk : k < N) :
    ((runUpdates initialRetryDelay (List.replicate N false)).2)[k]? =
      some (min (initialRetryDelay * 2 ^ k) maxRetryDelay) ∧
    (∀ d rest, runUpdates d (true :: rest) = runUpdates initialRetryDelay rest) := by
  refine ⟨?_, fun d rest => rfl⟩
  rw [runUpdates_replicate_false, List.getElem?_map, List.getElem?_range hk,
    Option.map_some']
  rw [delayIter_min k initialRetryDelay (by simp [initialRetryDelay, maxRetryDelay])]

/-- Witness for C4's amended statement: seven consecutive failures; the
seventh sleep is already capped. -/
theorem backoff_growth_amended_witness :
    6 < 7 ∧
    ((runUpdates initialRetryDelay (List.replicate 7 false)).2)[6]? =
      some (min (initialRetryDelay * 2 ^ 6) maxRetryDelay) := by
  exact ⟨by decide, (backoff_growth_amended 7 6 (by decide)).1⟩

/-! ## Claim C10: partial data-center results accompany the error -/

/-- Helper: the mutex-guarded accumulation of `GetDataCenterIPRanges` yields
the concatenation of the successful sub-sources' ranges. -/
theorem collectRanges_eq (results : List SourceResult) :
    collectRanges results = specSuccessRanges results := by
  suffices h : ∀ acc : List IPNet,
      results.foldl
        (fun acc r =>
          match r with
          | SourceResult.ok ranges => acc ++ ranges
          | SourceResult.err _ => acc)
        acc = acc ++ specSuccessRanges results by
    simpa [collectRanges] using h []
  induction results with
  | nil => intro acc; simp [specSuccessRanges]
  | cons r rest ih =>
    intro acc
    cases r with
    | ok ranges =>
      simp [specSuccessRanges, List.filterMap_cons, ih, List.append_assoc]
    | err m => simp [specSuccessRanges, List.filterMap_cons, ih]

/-- Claim C10: when some but not all of the five sub-source fetches fail
(at most three failing), `GetDataCenterIPRanges` returns both the
concatenation of the successful sub-sources' ranges and a non-nil error, and
`main` installs those partial ranges as the data-center list despite the
error. -/
theorem datacenter_results_kept_despite_error (results : List SourceResult)
    (st : Networks) (h5 : results.length = 5)
    (hfail : collectErrStrings results ≠ [])
    (hok : ∃ ranges, SourceResult.ok ranges ∈ results)
    (hcap : (collectErrStrings results).length ≤ errChanCap) :
    (GetDataCenterIPRanges results).2.isSome = true ∧
    (GetDataCenterIPRanges results).1 = specSuccessRanges results ∧
    (mainInstallDataCenter results st).dataCenterNetworks =
      specSuccessRanges results := by
  have hr := collectRanges_eq results
  have hne : (collectErrStrings results).isEmpty = false := by
    cases hcs : collectErrStrings results with
    | nil => exact absurd hcs hfail
    | cons a l => rfl
  refine ⟨?_, ?_, ?_⟩
  · simp [GetDataCenterIPRanges, hne]
  · simp [GetDataCenterIPRanges, hne, hr]
  · simp [mainInstallDataCenter, GetDataCenterIPRanges, hne, hr]

/-- Witness for C10: one of five sub-sources fails; the successful ranges
are returned and installed, the error is non-nil. -/
theorem datacenter_results_kept_despite_error_witness :
    ([SourceResult.ok [⟨167772160, 8⟩], SourceResult.err "OCI: boom",
      SourceResult.ok [], SourceResult.ok [], SourceResult.ok []] :
        List SourceResult).length = 5 ∧
    (GetDataCenterIPRanges
      [SourceResult.ok [⟨167772160, 8⟩], SourceResult.err "OCI: boom",
        SourceResult.ok [], SourceResult.ok [], SourceResult.ok []]).2.isSome = true ∧
    (mainInstallDataCenter
      [SourceResult.ok [⟨167772160, 8⟩], SourceResult.err "OCI: boom",
        SourceResult.ok [], SourceResult.ok [], SourceResult.ok []]
      initialNetworks).dataCenterNetworks =
      specSuccessRanges
        [SourceResult.ok [⟨167772160, 8⟩], SourceResult.err "OCI: boom",
          SourceResult.ok [], SourceResult.ok [], SourceResult.ok []] := by
  have h := datacenter_results_kept_despite_error
    [SourceResult.ok [⟨167772160, 8⟩], SourceResult.err "OCI: boom",
      SourceResult.ok [], SourceResult.ok [], SourceResult.ok []]
    initialNetworks rfl (by decide) ⟨[⟨167772160, 8⟩], by decide⟩ (by decide)
  exact ⟨rfl, h.1, h.2.2⟩

/-! ## Claim C7: containment agrees with prefix-matching semantics -/

/-- Helper: ANDing a 32-bit value with the length-`len` network mask keeps
exactly its top `len` bits. -/
theorem land_mask_eq_shift (ip len : Nat) (hlen : len ≤ 32) (hip : ip < 2 ^ 32) :
    ip &&& maskOfLen len = (ip >>> (32 - len)) <<< (32 - len) := by
  apply Nat.eq_of_testBit_eq
  intro j
  rw [Nat.testBit_land, maskOfLen, Nat.testBit_shiftLeft, Nat.testBit_shiftLeft,
    Nat.testBit_shiftRight, Nat.testBit_two_pow_sub_one]
  by_cases hjk : 32 - len ≤ j
  · rw [Nat.add_sub_cancel' hjk]
    by_cases hj32 : j < 32
    · have hlt : j - (32 - len) < len := by omega
      simp [ge_iff_le, hjk, hlt]
    · have h0 : ip.testBit j = false :=
        Nat.testBit_lt_two_pow
          (lt_of_lt_of_le hip (Nat.pow_le_pow_right (by norm_num) (by omega)))
      simp [h0]
  · simp [ge_iff_le, hjk]

/-- Helper: shifting left then right by the same amount is the identity. -/
theorem shiftRight_shiftLeft_cancel (a k : Nat) : (a <<< k) >>> k = a := by
  rw [Nat.shiftLeft_eq, Nat.shiftRight_eq_div_pow]
  exact Nat.mul_div_cancel a (pow_pos (by norm_num) k)

/-- Helper: `IPNet.contains` coincides with prefix equality on well-formed
ranges and 32-bit addresses. -/
theorem contains_iff_shift (n : IPNet) (ip : Nat) (h : n.WF)
    (hip : ip < 2 ^ 32) : (n.contains ip = true) ↔ prefixSemantics n ip := by
  obtain ⟨hlen, hbase, hmask⟩ := h
  unfold IPNet.contains prefixSemantics
  rw [beq_iff_eq]
  have hib := land_mask_eq_shift ip n.maskLen hlen hip
  have hbb := land_mask_eq_shift n.base n.maskLen hlen hbase
  constructor
  · intro he
    have h1 : (ip >>> (32 - n.maskLen)) <<< (32 - n.maskLen) =
        (n.base >>> (32 - n.maskLen)) <<< (32 - n.maskLen) := by
      rw [← hib, ← hbb, he]
      exact hmask.symm
    have h2 := congrArg (fun x => x >>> (32 - n.maskLen)) h1
    simpa [shiftRight_shiftLeft_cancel] using h2
  · intro he
    rw [hib, he, ← hbb]
    exact hmask

/-- Helper: a parsed dotted-decimal octet is at most 255. -/
theorem parseDecOctet_le (cs : List Char) (v : Nat)
    (h : parseDecOctet cs = some v) : v ≤ 255 := by
  unfold parseDecOctet at h
  rcases hd : decDigits cs with _ | w <;> rw [hd] at h
  · cases h
  · by_cases h3 : 3 < cs.length
    · simp [h3] at h
    · by_cases hz : (decide (1 < cs.length) && cs.head? == some '0') = true
      · simp [h3, hz] at h
      · by_cases h255 : w ≤ 255
        · simp [h3, hz, h255] at h
          omega
        · simp [h3, hz, h255] at h

/-- Helper: a parsed IPv4 address is a 32-bit value. -/
theorem parseIPList_lt (cs : List Char) (ip : Nat)
    (h : parseIPList cs = some ip) : ip < 2 ^ 32 := by
  unfold parseIPList at h
  have h32 : (2 : Nat) ^ 32 = 4294967296 := by norm_num
  split at h
  · rename_i a b c d heqsplit
    rcases ha : parseDecOctet a with _ | va <;>
      rcases hb : parseDecOctet b with _ | vb <;>
      rcases hcc : parseDecOctet c with _ | vc <;>
      rcases hdd : parseDecOctet d with _ | vd <;>
      rw [ha, hb, hcc, hdd] at h <;> simp at h
    have la := parseDecOctet_le a va ha
    have lb := parseDecOctet_le b vb hb
    have lc := parseDecOctet_le c vc hcc
    have ld := parseDecOctet_le d vd hdd
    omega
  · cases h

/-- Helper: AND with a mask is idempotent. -/
theorem land_land_self (x m : Nat) : x &&& m &&& m = x &&& m := by
  apply Nat.eq_of_testBit_eq
  intro i
  simp [Nat.testBit_land, Bool.and_assoc]

/-- Helper: every range produced by `parseCIDR` is well-formed. -/
theorem parseCIDR_wf (s : String) (n : IPNet) (h : parseCIDR s = some n) :
    n.WF := by
  unfold parseCIDR at h
  split at h
  · rename_i addrPart maskPart heqsplit
    rcases ha : parseIPList addrPart with _ | ipv <;>
      rcases hl : decDigits maskPart with _ | len <;>
      rw [ha, hl] at h
    · simp at h
    · simp at h
    · simp at h
    · by_cases hlen : len ≤ 32
      · simp only [hlen, if_true, Option.some.injEq] at h
        subst h
        refine ⟨hlen, ?_, land_land_self ipv (maskOfLen len)⟩
        have hiplt := parseIPList_lt addrPart ipv ha
        calc ipv &&& maskOfLen len
            = (ipv >>> (32 - len)) <<< (32 - len) :=
              land_mask_eq_shift ipv len hlen hiplt
          _ = ipv / 2 ^ (32 - len) * 2 ^ (32 - len) := by
              rw [Nat.shiftLeft_eq, Nat.shiftRight_eq_div_pow]
          _ ≤ ipv := Nat.div_mul_le_self ipv _
          _ < 2 ^ 32 := hiplt
      · simp [hlen] at h
  · cases h

/-- Claim C7: for every parsed CIDR range and 32-bit address the containment
test agrees with standard prefix-matching semantics, and each feed's
membership test is the linear scan returning true at the first containing
range (Firehol, data-center) or the first exact address equality (Tor exit
nodes, IPsum, Greensnow). -/
theorem containment_agrees_with_standard_semantics (s : String) (n : IPNet)
    (ip : Nat) (hn : parseCIDR s = some n) (hip : ip < 2 ^ 32) :
    ((n.contains ip = true) ↔ prefixSemantics n ip) ∧
    (∀ st : Networks, isIPBlocked st ip = true ↔
      ((∃ m ∈ st.blockedNetworks, m.contains ip = true) ∨
        ip ∈ st.ipsumIPs ∨ ip ∈ st.greensnowIPs)) ∧
    (∀ st : Networks, isDataCenterIP st ip = true ↔
      ∃ m ∈ st.dataCenterNetworks, m.contains ip = true) ∧
    (∀ st : Networks, isTorExitNode st ip = true ↔ ip ∈ st.torExitNodes) := by
  refine ⟨contains_iff_shift n ip (parseCIDR_wf s n hn) hip, ?_, ?_, ?_⟩
  · intro st
    simp [isIPBlocked, List.any_eq_true, or_assoc]
  · intro st
    simp [isDataCenterIP, List.any_eq_true]
  · intro st
    constructor
    · intro h
      rcases List.any_eq_true.mp h with ⟨x, hx, hxe⟩
      have hxi : x = ip := by simpa using hxe
      rwa [hxi] at hx
    · intro h
      exact List.any_eq_true.mpr ⟨ip, h, by simp⟩

/-- Witness for C7: `10.0.0.0/8` contains `10.1.2.3` but not `11.0.0.0`,
and the equivalence instantiates on the parsed range. -/
theorem containment_agrees_witness :
    parseCIDR "10.0.0.0/8" = some ⟨167772160, 8⟩ ∧
    167838211 < 2 ^ 32 ∧
    (((IPNet.mk 167772160 8).contains 167838211 = true) ↔
      prefixSemantics ⟨167772160, 8⟩ 167838211) ∧
    (IPNet.mk 167772160 8).contains 167838211 = true ∧
    (IPNet.mk 167772160 8).contains 184549376 = false := by
  refine ⟨by decide, by norm_num, ?_, by decide, by decide⟩
  exact (containment_agrees_with_standard_semantics "10.0.0.0/8"
    ⟨167772160, 8⟩ 167838211 (by decide) (by norm_num)).1

/-! ## Claim C9: the error channel never blocks with at most 3 failures -/

/-- Helper: no step is possible once every goroutine has completed. -/
theorem fetchStep_pending_ne_nil (s t : FetchersState) (h : FetchStep s t) :
    s.pending ≠ [] := by
  cases h <;> simp

/-- Helper: every step conserves the total error count (buffered plus still
to be sent) and strictly shrinks the pending list. -/
theorem fetchStep_inv (s t : FetchersState) (h : FetchStep s t) :
    t.buffered + t.pending.count true = s.buffered + s.pending.count true ∧
    t.pending.length < s.pending.length := by
  cases h with
  | finishOk l1 l2 b =>
    constructor
    · simp [List.count_append, List.count_cons]
    · simp
  | sendErr l1 l2 b hb =>
    constructor
    · simp [List.count_append, List.count_cons]
      omega
    · simp

/-- Helper: the error count is conserved along every execution. -/
theorem fetch_reachable_count (init s : FetchersState)
    (h : Relation.ReflTransGen FetchStep init s) :
    s.buffered + s.pending.count true =
      init.buffered + init.pending.count true := by
  induction h with
  | refl => rfl
  | tail hsteps hstep ih => rw [(fetchStep_inv _ _ hstep).1]; exact ih

/-- Claim C9: with the five fetch goroutines of `GetDataCenterIPRanges` and
the capacity-3 `errChan` drained only after all of them complete, every
execution in which at most three goroutines must send an error makes
progress until all goroutines have completed (each step shrinks the pending
set, and no reachable state with pending goroutines is stuck), so the
function terminates and returns. -/
theorem getDataCenterIPRanges_no_deadlock (fails : List Bool)
    (h5 : fails.length = 5) (h3 : fails.count true ≤ errChanCap)
    (s : FetchersState)
    (hreach : Relation.ReflTransGen FetchStep ⟨fails, 0⟩ s) :
    (∀ t, FetchStep s t → t.pending.length < s.pending.length) ∧
    ((∀ t, ¬ FetchStep s t) → s.pending = []) := by
  refine ⟨fun t ht => (fetchStep_inv s t ht).2, ?_⟩
  intro hstuck
  have hinv := fetch_reachable_count ⟨fails, 0⟩ s hreach
  cases hp : s.pending with
  | nil => rfl
  | cons x rest =>
    exfalso
    have hseq : s = ⟨x :: rest, s.buffered⟩ := by
      cases s
      simp_all
    cases x with
    | false =>
      refine hstuck ⟨rest, s.buffered⟩ ?_
      rw [hseq]
      exact FetchStep.finishOk [] rest s.buffered
    | true =>
      have hblt : s.buffered < errChanCap := by
        rw [hp] at hinv
        simp [List.count_cons] at hinv
        simp [errChanCap] at h3 ⊢
        omega
      refine hstuck ⟨rest, s.buffered + 1⟩ ?_
      rw [hseq]
      exact FetchStep.sendErr [] rest s.buffered hblt

/-- Witness for C9: one failing source among five; the execution that sends
its error first and then completes the four successes reaches the state with
nothing pending, which is stuck, and the theorem applies to it. -/
theorem getDataCenterIPRanges_no_deadlock_witness :
    ([true, false, false, false, false] : List Bool).length = 5 ∧
    ([true, false, false, false, false] : List Bool).count true ≤ errChanCap ∧
    (FetchersState.mk [] 1).pending = [] := by
  refine ⟨by decide, by decide, ?_⟩
  have hreach : Relation.ReflTransGen FetchStep
      ⟨[true, false, false, false, false], 0⟩ ⟨[], 1⟩ := by
    have s1 : FetchStep ⟨[true, false, false, false, false], 0⟩
        ⟨[false, false, false, false], 1⟩ :=
      FetchStep.sendErr [] [false, false, false, false] 0 (by decide)
    have s2 : FetchStep ⟨[false, false, false, false], 1⟩
        ⟨[false, false, false], 1⟩ :=
      FetchStep.finishOk [] [false, false, false] 1
    have s3 : FetchStep ⟨[false, false, false], 1⟩ ⟨[false, false], 1⟩ :=
      FetchStep.finishOk [] [false, false] 1
    have s4 : FetchStep ⟨[false, false], 1⟩ ⟨[false], 1⟩ :=
      FetchStep.finishOk [] [false] 1
    have s5 : FetchStep ⟨[false], 1⟩ ⟨[], 1⟩ :=
      FetchStep.finishOk [] [] 1
    exact Relation.ReflTransGen.tail
      (Relation.ReflTransGen.tail
        (Relation.ReflTransGen.tail
          (Relation.ReflTransGen.tail
            (Relation.ReflTransGen.tail Relation.ReflTransGen.refl s1) s2) s3)
        s4) s5
  have hstuck : ∀ t, ¬ FetchStep ⟨[], 1⟩ t := by
    intro t ht
    exact fetchStep_pending_ne_nil _ t ht rfl
  exact (getDataCenterIPRanges_no_deadlock [true, false, false, false, false]
    rfl (by decide) ⟨[], 1⟩ hreach).2 hstuck

/-! ## Claim C2: classification observes whole snapshots -/

/-- Helper: the invariant holds in the initial state. -/
theorem storeInv_init (oldList newList : List IPNet) :
    StoreInv oldList newList (initStore oldList) := by
  simp [StoreInv, initStore, readerCount]

/-- Helper: every interleaving step preserves the invariant. -/
theorem storeInv_step (oldList newList : List IPNet) (s t : StoreState)
    (hinv : StoreInv oldList newList s) (hstep : StoreStep newList s t) :
    StoreInv oldList newList t := by
  obtain ⟨hWold, hWnew, hHeld, hRead, hScan, hDone⟩ := hinv
  cases hstep with
  | wLock hw hr hh =>
    refine ⟨?_, ?_, ?_, ?_, ?_, ?_⟩
    · intro _
      exact hWold (Or.inl hw)
    · rintro (h | h) <;> cases h
    · simp
    · exact hRead
    · intro acc i hsc
      exfalso
      rw [hsc] at hRead
      rw [hr] at hRead
      simp [readerCount] at hRead
    · exact hDone
  | wSwap hw =>
    refine ⟨?_, ?_, ?_, ?_, ?_, ?_⟩
    · rintro (h | h) <;> cases h
    · intro _
      rfl
    · simp [hHeld.mpr (Or.inl hw)]
    · exact hRead
    · intro acc i hsc
      exfalso
      have hc := (hScan acc i hsc).1
      rw [hw] at hc
      rcases hc with h | h <;> cases h
    · exact hDone
  | wUnlock hw =>
    refine ⟨?_, ?_, ?_, ?_, ?_, ?_⟩
    · rintro (h | h) <;> cases h
    · intro _
      exact hWnew (Or.inl hw)
    · simp
    · exact hRead
    · intro acc i hsc
      exfalso
      have hc := (hScan acc i hsc).1
      rw [hw] at hc
      rcases hc with h | h <;> cases h
    · exact hDone
  | rLock hp hh =>
    refine ⟨hWold, hWnew, hHeld, ?_, ?_, ?_⟩
    · rw [hRead, hp]
      simp [readerCount]
    · intro acc i hsc
      cases hsc
      have hnw := hHeld
      rw [hh] at hnw
      refine ⟨?_, by simp, by simp⟩
      cases hwc : s.writer with
      | building => exact Or.inl rfl
      | finished => exact Or.inr rfl
      | locked => exact absurd (hnw.mpr (Or.inl hwc)) (by simp)
      | swapped => exact absurd (hnw.mpr (Or.inr hwc)) (by simp)
    · intro acc hd
      cases hd
  | rScan acc i hp hi =>
    refine ⟨hWold, hWnew, hHeld, ?_, ?_, ?_⟩
    · rw [hRead, hp]
      simp [readerCount]
    · intro acc' i' hsc
      cases hsc
      obtain ⟨hwr, hacc, hle⟩ := hScan acc i hp
      refine ⟨hwr, ?_, ?_⟩
      · show acc ++ [s.blockedNetworks.get ⟨i, hi⟩] =
          List.take (i + 1) s.blockedNetworks
        rw [List.take_succ, ← hacc, List.getElem?_eq_getElem hi]
        simp [List.get_eq_getElem]
      · show i + 1 ≤ s.blockedNetworks.length
        omega
    · intro acc' hd
      cases hd
  | rUnlock acc i hp hi =>
    refine ⟨hWold, hWnew, hHeld, ?_, ?_, ?_⟩
    · rw [hRead, hp]
      simp [readerCount]
    · intro acc' i' hsc
      cases hsc
    · intro acc' hd
      cases hd
      obtain ⟨hwr, hacc, hle⟩ := hScan acc i hp
      have hieq : i = s.blockedNetworks.length := by omega
      rw [hacc, hieq, List.take_length]
      rcases hwr with h | h
      · exact Or.inl (hWold (Or.inl h))
      · exact Or.inr (hWnew (Or.inr h))

/-- Helper: the invariant holds in every reachable state. -/
theorem storeInv_reachable (oldList newList : List IPNet) (s : StoreState)
    (h : Relation.ReflTransGen (StoreStep newList) (initStore oldList) s) :
    StoreInv oldList newList s := by
  induction h with
  | refl => exact storeInv_init oldList newList
  | tail hsteps hstep ih => exact storeInv_step oldList newList _ _ ih hstep

/-- Claim C2: under one snapshot replacement racing one classification scan
on the same feed — the new list built privately, the global reference
swapped under the write lock, the scan holding the read lock for its full
duration — every completed scan has read the entire previous snapshot or the
entire new snapshot, never a mixture. -/
theorem classify_observes_whole_snapshot (oldList newList : List IPNet)
    (s : StoreState) (acc : List IPNet)
    (hreach : Relation.ReflTransGen (StoreStep newList) (initStore oldList) s)
    (hdone : s.reader = ReaderPhase.done acc) :
    acc = oldList ∨ acc = newList :=
  (storeInv_reachable oldList newList s hreach).2.2.2.2.2 acc hdone

/-- Witness for C2: the writer installs the new one-entry snapshot, then the
reader scans; the completed scan observed exactly the new snapshot. -/
theorem classify_observes_whole_snapshot_witness :
    ([⟨167772160, 8⟩] : List IPNet) = [] ∨
      ([⟨167772160, 8⟩] : List IPNet) = [⟨167772160, 8⟩] := by
  have s1 : StoreStep [⟨167772160, 8⟩] (initStore [])
      ⟨[], 0, true, ReaderPhase.idle, WriterPhase.locked⟩ :=
    StoreStep.wLock (initStore []) rfl rfl rfl
  have s2 : StoreStep [⟨167772160, 8⟩]
      ⟨[], 0, true, ReaderPhase.idle, WriterPhase.locked⟩
      ⟨[⟨167772160, 8⟩], 0, true, ReaderPhase.idle, WriterPhase.swapped⟩ :=
    StoreStep.wSwap _ rfl
  have s3 : StoreStep [⟨167772160, 8⟩]
      ⟨[⟨167772160, 8⟩], 0, true, ReaderPhase.idle, WriterPhase.swapped⟩
      ⟨[⟨167772160, 8⟩], 0, false, ReaderPhase.idle, WriterPhase.finished⟩ :=
    StoreStep.wUnlock _ rfl
  have s4 : StoreStep [⟨167772160, 8⟩]
      ⟨[⟨167772160, 8⟩], 0, false, ReaderPhase.idle, WriterPhase.finished⟩
      ⟨[⟨167772160, 8⟩], 1, false, ReaderPhase.scanning [] 0,
        WriterPhase.finished⟩ :=
    StoreStep.rLock _ rfl rfl
  have s5 : StoreStep [⟨167772160, 8⟩]
      ⟨[⟨167772160, 8⟩], 1, false, ReaderPhase.scanning [] 0,
        WriterPhase.finished⟩
      ⟨[⟨167772160, 8⟩], 1, false,
        ReaderPhase.scanning [⟨167772160, 8⟩] 1, WriterPhase.finished⟩ :=
    StoreStep.rScan _ [] 0 rfl (by decide)
  have s6 : StoreStep [⟨167772160, 8⟩]
      ⟨[⟨167772160, 8⟩], 1, false,
        ReaderPhase.scanning [⟨167772160, 8⟩] 1, WriterPhase.finished⟩
      ⟨[⟨167772160, 8⟩], 0, false, ReaderPhase.done [⟨167772160, 8⟩],
        WriterPhase.finished⟩ :=
    StoreStep.rUnlock _ [⟨167772160, 8⟩] 1 rfl (by decide)
  exact classify_observes_whole_snapshot [] [⟨167772160, 8⟩]
    ⟨[⟨167772160, 8⟩], 0, false, ReaderPhase.done [⟨167772160, 8⟩],
      WriterPhase.finished⟩ [⟨167772160, 8⟩]
    (Relation.ReflTransGen.tail
      (Relation.ReflTransGen.tail
        (Relation.ReflTransGen.tail
          (Relation.ReflTransGen.tail
            (Relation.ReflTransGen.tail
              (Relation.ReflTransGen.tail Relation.ReflTransGen.refl s1) s2)
            s3) s4) s5) s6) rfl

end IPShield
